import Mathlib

/-
  Verification development for the NamedFunc expression-value core
  (src/core/named_func.cpp).

  Modelling choices for the shallow embedding:
  * `ScalarType` (a floating-point type in the source) is modelled as `Int`;
    every claim under study is either parametric in the combining operator or
    concerns only shapes, lengths, names and zero/nonzero truthiness, none of
    which depend on floating-point specifics.
  * The event record `Baby` is an opaque collaborator; it is modelled as `Nat`.
  * `std::function` objects that may be empty are modelled as `Option` of the
    function type; an empty `std::function` is `none`.
  * Invocation counts of operand evaluators (observable through side effects
    in C++) are modelled by explicit counters carried by the evaluator-body
    translations `andSVrun`, `orSVrun`, `andVSgo`, `orVSgo`: each textual call
    of the counted operand evaluator in the source increments the counter.
-/

/-- Event record (the C++ `Baby`); an opaque collaborator, modelled as `Nat`. -/
abbrev Baby := Nat

/-- The numeric domain (`NamedFunc::ScalarType`, a floating type in C++),
modelled as `Int`. -/
abbrev ScalarType := Int

/-- A per-record sequence of numbers (`NamedFunc::VectorType`). -/
abbrev VectorType := List ScalarType

/-- Scalar evaluator signature (`NamedFunc::ScalarFunc`). -/
abbrev ScalarFunc := Baby → ScalarType

/-- Vector evaluator signature (`NamedFunc::VectorFunc`). -/
abbrev VectorFunc := Baby → VectorType

/-- C++ conversion `bool → ScalarType` (true ↦ 1, false ↦ 0). -/
def toScalar (b : Bool) : ScalarType := if b then 1 else 0

/-- C++ conversion `ScalarType → bool`: a number is truthy iff nonzero. -/
def truthy (x : ScalarType) : Bool := decide (x ≠ 0)

/-- Strips all spaces from a string; models `ReplaceAll(name_, " ", "")` used
by `NamedFunc::CleanName` (replacing every occurrence of the one-character
pattern `" "` by the empty string removes exactly the space characters). -/
def CleanName (s : String) : String := String.mk (s.data.filter (fun c => c ≠ ' '))

/-- The expression-value type (`NamedFunc`): a name string plus a scalar and a
vector evaluator slot, of which at most one is meant to be populated. -/
structure NamedFunc where
  name_ : String
  scalar_func_ : Option ScalarFunc
  vector_func_ : Option VectorFunc

/-- Scalar constructor `NamedFunc(name, function<ScalarFunc>)`: stores the
(possibly empty) scalar function, leaves the vector slot empty, cleans the
name. -/
def NamedFunc.ofScalarFunc (name : String) (f : Option ScalarFunc) : NamedFunc :=
  ⟨CleanName name, f, none⟩

/-- Vector constructor `NamedFunc(name, function<VectorFunc>)`. -/
def NamedFunc.ofVectorFunc (name : String) (f : Option VectorFunc) : NamedFunc :=
  ⟨CleanName name, none, f⟩

/-- Constant constructor `NamedFunc(ScalarType x)`: a scalar evaluator ignoring
the record; the name is the literal text of the constant. -/
def NamedFunc.ofConstant (x : ScalarType) : NamedFunc :=
  ⟨toString x, some (fun _ => x), none⟩

/-- Name mutator `NamedFunc::Name(const string &)`: re-normalizes via
`CleanName`; never touches the evaluators. -/
def NamedFunc.NameSet (nf : NamedFunc) (s : String) : NamedFunc :=
  { nf with name_ := CleanName s }

/-- Evaluator mutator `NamedFunc::Function(const function<ScalarFunc> &)`:
an empty argument is a silent no-op; a valid argument overwrites the scalar
function and invalidates the vector function. -/
def NamedFunc.FunctionS (nf : NamedFunc) (f : Option ScalarFunc) : NamedFunc :=
  match f with
  | none => nf
  | some g => { nf with scalar_func_ := some g, vector_func_ := none }

/-- Evaluator mutator `NamedFunc::Function(const function<VectorFunc> &)`:
an empty argument is a silent no-op; a valid argument overwrites the vector
function and invalidates the scalar function. -/
def NamedFunc.FunctionV (nf : NamedFunc) (f : Option VectorFunc) : NamedFunc :=
  match f with
  | none => nf
  | some g => { nf with scalar_func_ := none, vector_func_ := some g }

/-- `NamedFunc::IsScalar`: whether the scalar function is valid. -/
def NamedFunc.IsScalar (nf : NamedFunc) : Bool := nf.scalar_func_.isSome

/-- `NamedFunc::IsVector`: whether the vector function is valid. -/
def NamedFunc.IsVector (nf : NamedFunc) : Bool := nf.vector_func_.isSome

/-- Applies an optional scalar evaluator to a record; `none` models the
`bad_function_call` fault of calling an empty `std::function`. -/
def optSApp (o : Option ScalarFunc) (b : Baby) : Option ScalarType :=
  o.map (fun f => f b)

/-- Applies an optional vector evaluator to a record. -/
def optVApp (o : Option VectorFunc) (b : Baby) : Option VectorType :=
  o.map (fun f => f b)

/-- The vector produced by an optional vector evaluator at a record (empty
when the evaluator is absent); a total accessor used to state theorems. -/
def vecResult (o : Option VectorFunc) (b : Baby) : VectorType :=
  match o with
  | none => []
  | some f => f b

/-- `NamedFunc::GetScalar`: evaluates the scalar function; absent evaluator
means the call faults (`none`). -/
def NamedFunc.GetScalar (nf : NamedFunc) (b : Baby) : Option ScalarType :=
  optSApp nf.scalar_func_ b

/-- `NamedFunc::GetVector`: evaluates the vector function. -/
def NamedFunc.GetVector (nf : NamedFunc) (b : Baby) : Option VectorType :=
  optVApp nf.vector_func_ b

/-- Unary `ApplyOp` on a scalar function: an empty function is returned
unchanged; otherwise the result composes `op` after `f`. -/
def ApplyOpS (f : Option ScalarFunc) (op : ScalarType → ScalarType) : Option ScalarFunc :=
  match f with
  | none => none
  | some g => some (fun b => op (g b))

/-- Unary `ApplyOp` on a vector function: an empty function is returned
unchanged; otherwise `op` is applied in place to every element, preserving
order and length. -/
def ApplyOpV (f : Option VectorFunc) (op : ScalarType → ScalarType) : Option VectorFunc :=
  match f with
  | none => none
  | some g => some (fun b => (g b).map op)

/-- Generic binary `ApplyOp`: dispatches on which evaluator of each operand is
valid, following the branch order of the source (`sfa ∧ sfb`, then
`sfa ∧ vfb`, then `vfa ∧ sfb`, then `vfa ∧ vfb`); the scalar/vector branch
computes the scalar once and broadcasts over the vector (length of the
vector operand), the vector/vector branch combines over the minimum of the
two lengths. Returns the `(scalar, vector)` output pair. -/
def ApplyOp2 (sfa : Option ScalarFunc) (vfa : Option VectorFunc)
    (sfb : Option ScalarFunc) (vfb : Option VectorFunc)
    (op : ScalarType → ScalarType → ScalarType) :
    Option ScalarFunc × Option VectorFunc :=
  match sfa, vfa, sfb, vfb with
  | some fa, _, some fb, _ =>
    (some (fun b => op (fa b) (fb b)), none)
  | some fa, _, none, some gb =>
    (none, some (fun b => (gb b).map (fun x => op (fa b) x)))
  | none, some ga, some fb, _ =>
    (none, some (fun b => (ga b).map (fun x => op x (fb b))))
  | none, some ga, none, some gb =>
    (none, some (fun b => List.zipWith op (ga b) (gb b)))
  | _, _, _, _ => (none, none)

/-- Body of the scalar-AND-vector evaluator of the `logical_and`
specialization of `ApplyOp`: when the scalar is falsy the result is a vector
of `false` (0) of the vector operand's length; when truthy it is exactly the
vector operand's evaluation. The second component counts invocations of the
vector operand's evaluator: each branch of the source calls `vfb(b)` exactly
once (the falsy branch calls it to obtain its size). -/
def andSVrun (sa : ScalarType) (vb : VectorType) : VectorType × Nat :=
  if sa = 0 then (List.replicate vb.length 0, 1) else (vb, 1)

/-- Body of the scalar-OR-vector evaluator of the `logical_or` specialization:
a truthy scalar yields a vector of `true` (1) of the vector operand's length;
a falsy scalar yields exactly the vector operand's evaluation. The counter
again records one invocation of the vector operand's evaluator per branch. -/
def orSVrun (sa : ScalarType) (vb : VectorType) : VectorType × Nat :=
  if truthy sa then (List.replicate vb.length 1, 1) else (vb, 1)

/-- Loop of the vector-AND-scalar evaluator of the `logical_and`
specialization: walks the vector operand's elements carrying the `evaluated`
flag and the cached scalar `sb` (initially 0); at the first truthy element
the scalar operand's value `sbv` is computed (counter incremented) and cached.
Each output element is `va[i] && sb`. -/
def andVSgo (sbv : ScalarType) : List ScalarType → Bool → ScalarType → Nat → VectorType × Nat
  | [], _, _, n => ([], n)
  | x :: xs, ev, sb, n =>
    if !ev && truthy x then
      let r := andVSgo sbv xs true sbv (n + 1)
      (toScalar (truthy x && truthy sbv) :: r.1, r.2)
    else
      let r := andVSgo sbv xs ev sb n
      (toScalar (truthy x && truthy sb) :: r.1, r.2)

/-- Vector-AND-scalar evaluator body: result vector and number of invocations
of the scalar operand's evaluator (whose value is `sbv`). -/
def andVS (va : VectorType) (sbv : ScalarType) : VectorType × Nat :=
  andVSgo sbv va false 0 0

/-- Loop of the vector-OR-scalar evaluator of the `logical_or` specialization:
the scalar operand is computed and cached at the first falsy element; each
output element is `va[i] || sb`. -/
def orVSgo (sbv : ScalarType) : List ScalarType → Bool → ScalarType → Nat → VectorType × Nat
  | [], _, _, n => ([], n)
  | x :: xs, ev, sb, n =>
    if !(ev || truthy x) then
      let r := orVSgo sbv xs true sbv (n + 1)
      (toScalar (truthy x || truthy sbv) :: r.1, r.2)
    else
      let r := orVSgo sbv xs ev sb n
      (toScalar (truthy x || truthy sb) :: r.1, r.2)

/-- Vector-OR-scalar evaluator body: result vector and number of invocations
of the scalar operand's evaluator. -/
def orVS (va : VectorType) (sbv : ScalarType) : VectorType × Nat :=
  orVSgo sbv va false 0 0

/-- The `logical_and` specialization of binary `ApplyOp`: same shape dispatch
as the generic template, with dedicated short-circuiting evaluator bodies. -/
def ApplyOpAnd (sfa : Option ScalarFunc) (vfa : Option VectorFunc)
    (sfb : Option ScalarFunc) (vfb : Option VectorFunc) :
    Option ScalarFunc × Option VectorFunc :=
  match sfa, vfa, sfb, vfb with
  | some fa, _, some fb, _ =>
    (some (fun b => toScalar (truthy (fa b) && truthy (fb b))), none)
  | some fa, _, none, some gb =>
    (none, some (fun b => (andSVrun (fa b) (gb b)).1))
  | none, some ga, some fb, _ =>
    (none, some (fun b => (andVS (ga b) (fb b)).1))
  | none, some ga, none, some gb =>
    (none, some (fun b => List.zipWith (fun x y => toScalar (truthy x && truthy y)) (ga b) (gb b)))
  | _, _, _, _ => (none, none)

/-- The `logical_or` specialization of binary `ApplyOp`. -/
def ApplyOpOr (sfa : Option ScalarFunc) (vfa : Option VectorFunc)
    (sfb : Option ScalarFunc) (vfb : Option VectorFunc) :
    Option ScalarFunc × Option VectorFunc :=
  match sfa, vfa, sfb, vfb with
  | some fa, _, some fb, _ =>
    (some (fun b => toScalar (truthy (fa b) || truthy (fb b))), none)
  | some fa, _, none, some gb =>
    (none, some (fun b => (orSVrun (fa b) (gb b)).1))
  | none, some ga, some fb, _ =>
    (none, some (fun b => (orVS (ga b) (fb b)).1))
  | none, some ga, none, some gb =>
    (none, some (fun b => List.zipWith (fun x y => toScalar (truthy x || truthy y)) (ga b) (gb b)))
  | _, _, _, _ => (none, none)

/-- Compound assignment skeleton shared by `operator+=`, `-=`, `*=`, `/=` and
`%=`: the new name is the parenthesized concatenation (assigned directly,
without re-cleaning), and both evaluator slots are overwritten together with
the generic `ApplyOp` output pair. -/
def NamedFunc.arithAssign (sym : String) (op : ScalarType → ScalarType → ScalarType)
    (f g : NamedFunc) : NamedFunc :=
  let fp := ApplyOp2 f.scalar_func_ f.vector_func_ g.scalar_func_ g.vector_func_ op
  ⟨"(" ++ f.name_ ++ ")" ++ sym ++ "(" ++ g.name_ ++ ")", fp.1, fp.2⟩

/-- Compound assignment `operator+=`. -/
def NamedFunc.addAssign (f g : NamedFunc) : NamedFunc :=
  NamedFunc.arithAssign "+" (fun a b => a + b) f g

/-- Compound assignment `operator-=`. -/
def NamedFunc.subAssign (f g : NamedFunc) : NamedFunc :=
  NamedFunc.arithAssign "-" (fun a b => a - b) f g

/-- Compound assignment `operator*=`. -/
def NamedFunc.mulAssign (f g : NamedFunc) : NamedFunc :=
  NamedFunc.arithAssign "*" (fun a b => a * b) f g

/-- Compound assignment `operator/=` (floating division in the source;
the division operation on the modelled numeric domain). -/
def NamedFunc.divAssign (f g : NamedFunc) : NamedFunc :=
  NamedFunc.arithAssign "/" (fun a b => a / b) f g

/-- Compound assignment `operator%=` (`fmod` in the source; the remainder
operation on the modelled numeric domain). -/
def NamedFunc.modAssign (f g : NamedFunc) : NamedFunc :=
  NamedFunc.arithAssign "%" (fun a b => a % b) f g

/-- Non-mutating `operator+`: copies the left operand (by-value parameter in
the source) and applies `operator+=` with the right operand. -/
def NamedFunc.add (f g : NamedFunc) : NamedFunc := f.addAssign g

/-- Non-mutating `operator-` (binary). -/
def NamedFunc.sub (f g : NamedFunc) : NamedFunc := f.subAssign g

/-- Non-mutating `operator*`. -/
def NamedFunc.mul (f g : NamedFunc) : NamedFunc := f.mulAssign g

/-- Non-mutating `operator/`. -/
def NamedFunc.div (f g : NamedFunc) : NamedFunc := f.divAssign g

/-- Non-mutating `operator%`. -/
def NamedFunc.mod (f g : NamedFunc) : NamedFunc := f.modAssign g

/-- Skeleton shared by the six comparison operators: renames via the cleaning
`Name` mutator, then installs the generic `ApplyOp` output pair through the
`Function` mutators (so an empty component of the pair is a silent no-op). -/
def NamedFunc.cmpOp (sym : String) (op : ScalarType → ScalarType → ScalarType)
    (f g : NamedFunc) : NamedFunc :=
  let f1 := f.NameSet ("(" ++ f.name_ ++ ")" ++ sym ++ "(" ++ g.name_ ++ ")")
  let fp := ApplyOp2 f.scalar_func_ f.vector_func_ g.scalar_func_ g.vector_func_ op
  (f1.FunctionS fp.1).FunctionV fp.2

/-- Comparison `operator==` (`equal_to`: boolean result converted to 0/1). -/
def NamedFunc.eqOp (f g : NamedFunc) : NamedFunc :=
  NamedFunc.cmpOp "==" (fun a b => toScalar (decide (a = b))) f g

/-- Comparison `operator!=`. -/
def NamedFunc.neOp (f g : NamedFunc) : NamedFunc :=
  NamedFunc.cmpOp "!=" (fun a b => toScalar (decide (a ≠ b))) f g

/-- Comparison `operator>`. -/
def NamedFunc.gtOp (f g : NamedFunc) : NamedFunc :=
  NamedFunc.cmpOp ">" (fun a b => toScalar (decide (b < a))) f g

/-- Comparison `operator<`. -/
def NamedFunc.ltOp (f g : NamedFunc) : NamedFunc :=
  NamedFunc.cmpOp "<" (fun a b => toScalar (decide (a < b))) f g

/-- Comparison `operator>=`. -/
def NamedFunc.geOp (f g : NamedFunc) : NamedFunc :=
  NamedFunc.cmpOp ">=" (fun a b => toScalar (decide (b ≤ a))) f g

/-- Comparison `operator<=`. -/
def NamedFunc.leOp (f g : NamedFunc) : NamedFunc :=
  NamedFunc.cmpOp "<=" (fun a b => toScalar (decide (a ≤ b))) f g

/-- Logical `operator&&`: renames, then installs the `logical_and`
specialization's output pair through the `Function` mutators. -/
def NamedFunc.andOp (f g : NamedFunc) : NamedFunc :=
  let f1 := f.NameSet ("(" ++ f.name_ ++ ")" ++ "&&" ++ "(" ++ g.name_ ++ ")")
  let fp := ApplyOpAnd f.scalar_func_ f.vector_func_ g.scalar_func_ g.vector_func_
  (f1.FunctionS fp.1).FunctionV fp.2

/-- Logical `operator||`. -/
def NamedFunc.orOp (f g : NamedFunc) : NamedFunc :=
  let f1 := f.NameSet ("(" ++ f.name_ ++ ")" ++ "||" ++ "(" ++ g.name_ ++ ")")
  let fp := ApplyOpOr f.scalar_func_ f.vector_func_ g.scalar_func_ g.vector_func_
  (f1.FunctionS fp.1).FunctionV fp.2

/-- Unary `operator+`: renames to the `+(...)` form; identity on evaluators. -/
def NamedFunc.unaryPlus (f : NamedFunc) : NamedFunc :=
  f.NameSet ("+(" ++ f.name_ ++ ")")

/-- Unary `operator-`: renames to the `-(...)` form, then installs the negated
scalar function and afterwards the negated vector function through the
`Function` mutators (mirroring the sequential mutation of the source: the
second call reads the vector slot as left by the first). -/
def NamedFunc.unaryMinus (f : NamedFunc) : NamedFunc :=
  let f1 := f.NameSet ("-(" ++ f.name_ ++ ")")
  let f2 := f1.FunctionS (ApplyOpS f1.scalar_func_ (fun x => -x))
  f2.FunctionV (ApplyOpV f2.vector_func_ (fun x => -x))

/-- Unary `operator!` (`logical_not`: a value maps to 1 iff it is zero). -/
def NamedFunc.unaryNot (f : NamedFunc) : NamedFunc :=
  let f1 := f.NameSet ("!(" ++ f.name_ ++ ")")
  let f2 := f1.FunctionS (ApplyOpS f1.scalar_func_ (fun x => toScalar (decide (x = 0))))
  f2.FunctionV (ApplyOpV f2.vector_func_ (fun x => toScalar (decide (x = 0))))

/-- Errors of the core: the shape-mismatch fault raised by the `ERROR` macro
in `operator[]`, the out-of-range fault of the bounds-checked `at` access,
and the unusable-callable fault of evaluating an absent evaluator. -/
inductive NFError where
  | shapeMismatch (msg : String)
  | indexOutOfRange
  | invalidShape
  deriving DecidableEq, Repr

/-- Bounds-checked vector access `v.at(i)`: succeeds exactly when the index
(converted from the numeric domain) lies within the vector's bounds; a
negative or too-large index raises the out-of-range fault. -/
def vecAt (v : VectorType) (i : ScalarType) : Except NFError ScalarType :=
  if 0 ≤ i ∧ i.toNat < v.length then Except.ok (v.getD i.toNat 0)
  else Except.error NFError.indexOutOfRange

/-- Result of the indexing operator: a name plus a scalar evaluator that may
fault per record (the lambda of the source throws from `at`). -/
structure IndexedFunc where
  name_ : String
  eval : Baby → Except NFError ScalarType

/-- Indexing `NamedFunc::operator[]`: errors at construction when the receiver
is scalar (first check) or the index operand is vector (second check);
otherwise builds a scalar evaluator `b ↦ vec(b).at(index(b))` under the name
`(receiver)[index]` (cleaned by the `NamedFunc` constructor). An absent
captured evaluator (impossible when the exactly-one invariant holds) faults at
call time like an empty `std::function`. -/
def NamedFunc.indexOp (f g : NamedFunc) : Except NFError IndexedFunc :=
  if f.IsScalar then
    Except.error (NFError.shapeMismatch
      ("Cannot apply indexing operator to scalar NamedFunc " ++ f.name_))
  else if g.IsVector then
    Except.error (NFError.shapeMismatch
      ("Cannot use vector " ++ g.name_ ++ " as index"))
  else
    match f.vector_func_, g.scalar_func_ with
    | some vec, some idx =>
      Except.ok ⟨CleanName ("(" ++ f.name_ ++ ")[" ++ g.name_ ++ "]"),
        fun b => vecAt (vec b) (idx b)⟩
    | _, _ =>
      Except.ok ⟨CleanName ("(" ++ f.name_ ++ ")[" ++ g.name_ ++ "]"),
        fun _ => Except.error NFError.invalidShape⟩

/-- `HavePass` on a single evaluated vector: whether any element is truthy. -/
def HavePassV (v : VectorType) : Bool :=
  v.any truthy

/-- `HavePass` on a list of evaluated vectors: false for the empty list;
otherwise scans the indices of the first vector and reports whether some
index is, in every vector of the list, both within bounds and truthy. -/
def HavePassVV (vv : List VectorType) : Bool :=
  match vv with
  | [] => false
  | v0 :: _ =>
    (List.range v0.length).any (fun ix =>
      vv.all (fun v => decide (ix < v.length) && truthy (v.getD ix 0)))

/-- The central invariant: exactly one of the two evaluator slots of a
`NamedFunc` is populated. -/
def ExactlyOne (nf : NamedFunc) : Prop :=
  (nf.scalar_func_.isSome = true ∧ nf.vector_func_.isSome = false) ∨
  (nf.scalar_func_.isSome = false ∧ nf.vector_func_.isSome = true)

/-- The invariant for an `ApplyOp` output pair. -/
def ExactlyOnePair (p : Option ScalarFunc × Option VectorFunc) : Prop :=
  (p.1.isSome = true ∧ p.2.isSome = false) ∨
  (p.1.isSome = false ∧ p.2.isSome = true)

/-- A name string containing no spaces (fixed point of `CleanName`). -/
def NoSpace (s : String) : Prop := CleanName s = s

/-- A scalar leaf named `x` used in concrete examples. -/
def leafX : NamedFunc := NamedFunc.ofScalarFunc "x" (some (fun _ => 1))

/-- A scalar leaf named `y` used in concrete examples. -/
def leafY : NamedFunc := NamedFunc.ofScalarFunc "y" (some (fun _ => 2))

/-- A vector leaf with constant value `[10, 20, 30]` used in concrete
examples. -/
def leafV : NamedFunc := NamedFunc.ofVectorFunc "v" (some (fun _ => [10, 20, 30]))

theorem list_getD_map (f : ScalarType → ScalarType) :
    ∀ (l : List ScalarType) (i : Nat), i < l.length →
      (List.map f l).getD i 0 = f (l.getD i 0) := by
  intro l
  induction l with
  | nil => intro i h; simp at h
  | cons x xs ih =>
    intro i h
    cases i with
    | zero => simp
    | succ n => simpa using ih n (by simpa using h)

theorem list_getD_zipWith (op : ScalarType → ScalarType → ScalarType) :
    ∀ (a b : List ScalarType) (i : Nat), i < a.length → i < b.length →
      (List.zipWith op a b).getD i 0 = op (a.getD i 0) (b.getD i 0) := by
  intro a
  induction a with
  | nil => intro b i h1 h2; simp at h1
  | cons x xs ih =>
    intro b i h1 h2
    cases b with
    | nil => simp at h2
    | cons y ys =>
      cases i with
      | zero => simp
      | succ n => simpa using ih ys n (by simpa using h1) (by simpa using h2)

/-- C1: for every binary operator passed to the generic `ApplyOp` (the
arithmetic operators and the six comparisons all instantiate it), and operands
of each of the four exactly-one-shape combinations, the composed evaluator
follows the shape case analysis on every record: scalar/scalar yields the
scalar `op(a,b)`; scalar/vector yields a vector of length `len(b)` with
element `i` equal to `op(a, b[i])`; vector/scalar yields a vector of length
`len(a)` with element `i` equal to `op(a[i], b)`; vector/vector yields a
vector of length `min(len(a), len(b))` with element `i` equal to
`op(a[i], b[i])` — truncation, never an error. -/
theorem c1_binary_shape_broadcast (op : ScalarType → ScalarType → ScalarType)
    (fa fb : ScalarFunc) (ga gb : VectorFunc) (b : Baby) :
    (optSApp (ApplyOp2 (some fa) none (some fb) none op).1 b = some (op (fa b) (fb b)) ∧
      (ApplyOp2 (some fa) none (some fb) none op).2 = none) ∧
    ((ApplyOp2 (some fa) none none (some gb) op).1 = none ∧
      (ApplyOp2 (some fa) none none (some gb) op).2.isSome = true ∧
      (vecResult (ApplyOp2 (some fa) none none (some gb) op).2 b).length = (gb b).length ∧
      (∀ i : Nat, i < (gb b).length →
        (vecResult (ApplyOp2 (some fa) none none (some gb) op).2 b).getD i 0
          = op (fa b) ((gb b).getD i 0))) ∧
    ((ApplyOp2 none (some ga) (some fb) none op).1 = none ∧
      (ApplyOp2 none (some ga) (some fb) none op).2.isSome = true ∧
      (vecResult (ApplyOp2 none (some ga) (some fb) none op).2 b).length = (ga b).length ∧
      (∀ i : Nat, i < (ga b).length →
        (vecResult (ApplyOp2 none (some ga) (some fb) none op).2 b).getD i 0
          = op ((ga b).getD i 0) (fb b))) ∧
    ((ApplyOp2 none (some ga) none (some gb) op).1 = none ∧
      (ApplyOp2 none (some ga) none (some gb) op).2.isSome = true ∧
      (vecResult (ApplyOp2 none (some ga) none (some gb) op).2 b).length
        = min (ga b).length (gb b).length ∧
      (∀ i : Nat, i < (ga b).length → i < (gb b).length →
        (vecResult (ApplyOp2 none (some ga) none (some gb) op).2 b).getD i 0
          = op ((ga b).getD i 0) ((gb b).getD i 0))) := by
  refine ⟨⟨rfl, rfl⟩, ⟨rfl, rfl, ?_, fun i h => ?_⟩, ⟨rfl, rfl, ?_, fun i h => ?_⟩,
    ⟨rfl, rfl, ?_, fun i h1 h2 => ?_⟩⟩
  · simp [ApplyOp2, vecResult]
  · simpa [ApplyOp2, vecResult] using list_getD_map (fun x => op (fa b) x) (gb b) i h
  · simp [ApplyOp2, vecResult]
  · simpa [ApplyOp2, vecResult] using list_getD_map (fun x => op x (fb b)) (ga b) i h
  · simp [ApplyOp2, vecResult]
  · simpa [ApplyOp2, vecResult] using list_getD_zipWith op (ga b) (gb b) i h1 h2

/-- Witness for C1 at concrete inputs: broadcasting 2 over `[10,20,30]` with
addition gives element 22 at index 1, and the vector/vector case of lengths 2
and 3 has result length 2. -/
theorem c1_binary_shape_broadcast_witness :
    (vecResult (ApplyOp2 (some (fun _ => (2 : ScalarType))) none none
        (some (fun _ => ([10, 20, 30] : VectorType))) (fun a b => a + b)).2 0).getD 1 0 = 22 ∧
    (vecResult (ApplyOp2 none (some (fun _ => ([1, 2] : VectorType))) none
        (some (fun _ => ([10, 20, 30] : VectorType))) (fun a b => a * b)).2 0).length = 2 := by
  have h1 := (c1_binary_shape_broadcast (fun a b => a + b) (fun _ => 2) (fun _ => 0)
    (fun _ => [1, 2]) (fun _ => [10, 20, 30]) 0).2.1.2.2.2 1 (by decide)
  have h2 := (c1_binary_shape_broadcast (fun a b => a * b) (fun _ => 2) (fun _ => 0)
    (fun _ => [1, 2]) (fun _ => [10, 20, 30]) 0).2.2.2.2.2.1
  exact ⟨by rw [h1]; decide, by rw [h2]; decide⟩

/-- C2 counterexample: with scalar operand A evaluating to the falsy 0 and
vector operand B evaluating to `[5]`, the scalar-AND-vector evaluator of the
source invokes B's vector evaluator once (the falsy branch calls it to obtain
its length), not zero times as the claim states. -/
theorem c2_short_circuit_sv_counterexample :
    (andSVrun 0 [5]).2 = 1 ∧ ¬ (andSVrun 0 [5]).2 = 0 := by
  decide

/-- C2 (amended): for scalar A combined with vector B by logical AND, a falsy
A yields a vector of that falsy value (0) of length `len(B)` and a truthy A
yields exactly B's evaluation, but B's vector evaluator is invoked exactly
once in either case (the short-circuit branch still calls it to obtain the
length); symmetrically for OR with an all-true vector. The composed `&&` and
`||` evaluators install exactly these bodies. -/
theorem c2_short_circuit_sv_amended (sa : ScalarType) (vb : VectorType)
    (fa : ScalarFunc) (gb : VectorFunc) (b : Baby) :
    (sa = 0 → (andSVrun sa vb).1.length = vb.length ∧ ∀ x ∈ (andSVrun sa vb).1, x = 0) ∧
    (sa ≠ 0 → (andSVrun sa vb).1 = vb) ∧
    (andSVrun sa vb).2 = 1 ∧
    (truthy sa = true → (orSVrun sa vb).1.length = vb.length ∧ ∀ x ∈ (orSVrun sa vb).1, x = 1) ∧
    (truthy sa = false → (orSVrun sa vb).1 = vb) ∧
    (orSVrun sa vb).2 = 1 ∧
    ((ApplyOpAnd (some fa) none none (some gb)).1 = none ∧
      optVApp (ApplyOpAnd (some fa) none none (some gb)).2 b = some (andSVrun (fa b) (gb b)).1) ∧
    ((ApplyOpOr (some fa) none none (some gb)).1 = none ∧
      optVApp (ApplyOpOr (some fa) none none (some gb)).2 b = some (orSVrun (fa b) (gb b)).1) := by
  refine ⟨fun h => ?_, fun h => ?_, ?_, fun h => ?_, fun h => ?_, ?_, ⟨rfl, rfl⟩, ⟨rfl, rfl⟩⟩
  · subst h
    refine ⟨by simp [andSVrun], fun x hx => ?_⟩
    simp only [andSVrun, if_pos rfl] at hx
    exact List.eq_of_mem_replicate hx
  · simp [andSVrun, h]
  · simp only [andSVrun]
    split <;> rfl
  · refine ⟨by simp [orSVrun, h], fun x hx => ?_⟩
    simp only [orSVrun, h, if_true] at hx
    exact List.eq_of_mem_replicate hx
  · simp [orSVrun, h]
  · simp only [orSVrun]
    split <;> rfl

/-- Witness for C2's amended theorem at the concrete input `A = 0`,
`B = [5]`: result has B's length and B is invoked exactly once. -/
theorem c2_short_circuit_sv_amended_witness :
    (andSVrun 0 [5]).1.length = 1 ∧ (andSVrun 0 [5]).2 = 1 := by
  have h := c2_short_circuit_sv_amended 0 [5] (fun _ => 0) (fun _ => [5]) 0
  exact ⟨by simpa using (h.1 rfl).1, h.2.2.1⟩

theorem andVSgo_evaluated (sbv : ScalarType) :
    ∀ (l : List ScalarType) (n : Nat),
      andVSgo sbv l true sbv n
        = (l.map (fun x => toScalar (truthy x && truthy sbv)), n) := by
  intro l
  induction l with
  | nil => intro n; rfl
  | cons x xs ih => intro n; simp [andVSgo, ih]

theorem truthy_zero : truthy 0 = false := rfl

theorem andVSgo_fresh (sbv : ScalarType) :
    ∀ (l : List ScalarType) (n : Nat),
      andVSgo sbv l false 0 n
        = (l.map (fun x => toScalar (truthy x && truthy sbv)),
           if l.any truthy then n + 1 else n) := by
  intro l
  induction l with
  | nil => intro n; rfl
  | cons x xs ih =>
    intro n
    by_cases hx : x = 0
    · have ht : truthy x = false := by simp [truthy, hx]
      simp [andVSgo, ht, ih, truthy_zero]
    · have ht : truthy x = true := by simp [truthy, hx]
      simp [andVSgo, ht, andVSgo_evaluated]

theorem orVSgo_evaluated (sbv : ScalarType) :
    ∀ (l : List ScalarType) (n : Nat),
      orVSgo sbv l true sbv n
        = (l.map (fun x => toScalar (truthy x || truthy sbv)), n) := by
  intro l
  induction l with
  | nil => intro n; rfl
  | cons x xs ih => intro n; simp [orVSgo, ih]

theorem orVSgo_fresh (sbv : ScalarType) :
    ∀ (l : List ScalarType) (n : Nat),
      orVSgo sbv l false 0 n
        = (l.map (fun x => toScalar (truthy x || truthy sbv)),
           if l.any (fun x => !truthy x) then n + 1 else n) := by
  intro l
  induction l with
  | nil => intro n; rfl
  | cons x xs ih =>
    intro n
    by_cases hx : x = 0
    · have ht : truthy x = false := by simp [truthy, hx]
      simp [orVSgo, ht, orVSgo_evaluated]
    · have ht : truthy x = true := by simp [truthy, hx]
      simp [orVSgo, ht, ih, truthy_zero]

/-- C3: for vector A combined with scalar B by logical AND, B's scalar
evaluator is invoked at most once per outer call — exactly once when some
element of A is truthy and never when all are falsy — and the result has
length `len(A)` with element `i` equal to `A[i] && B`; symmetrically for OR,
B is invoked exactly once when some element of A is falsy, and element `i`
equals `A[i] || B`. The composed `&&` and `||` evaluators install exactly
these bodies. -/
theorem c3_vector_scalar_lazy (va : VectorType) (sbv : ScalarType)
    (ga : VectorFunc) (fb : ScalarFunc) (b : Baby) :
    (andVS va sbv).1 = va.map (fun x => toScalar (truthy x && truthy sbv)) ∧
    (andVS va sbv).1.length = va.length ∧
    (andVS va sbv).2 = (if va.any truthy then 1 else 0) ∧
    (andVS va sbv).2 ≤ 1 ∧
    (orVS va sbv).1 = va.map (fun x => toScalar (truthy x || truthy sbv)) ∧
    (orVS va sbv).1.length = va.length ∧
    (orVS va sbv).2 = (if va.any (fun x => !truthy x) then 1 else 0) ∧
    (orVS va sbv).2 ≤ 1 ∧
    ((ApplyOpAnd none (some ga) (some fb) none).1 = none ∧
      optVApp (ApplyOpAnd none (some ga) (some fb) none).2 b = some (andVS (ga b) (fb b)).1) ∧
    ((ApplyOpOr none (some ga) (some fb) none).1 = none ∧
      optVApp (ApplyOpOr none (some ga) (some fb) none).2 b = some (orVS (ga b) (fb b)).1) := by
  have ha := andVSgo_fresh sbv va 0
  have ho := orVSgo_fresh sbv va 0
  refine ⟨?_, ?_, ?_, ?_, ?_, ?_, ?_, ?_, ⟨rfl, rfl⟩, ⟨rfl, rfl⟩⟩
  · simp [andVS, ha]
  · simp [andVS, ha]
  · simp [andVS, ha]
  · simp only [andVS, ha]
    split <;> simp
  · simp [orVS, ho]
  · simp [orVS, ho]
  · simp [orVS, ho]
  · simp only [orVS, ho]
    split <;> simp

theorem ApplyOp2_exactlyOne (op : ScalarType → ScalarType → ScalarType)
    (sfa : Option ScalarFunc) (vfa : Option VectorFunc)
    (sfb : Option ScalarFunc) (vfb : Option VectorFunc)
    (ha : sfa.isSome = true ∧ vfa.isSome = false ∨ sfa.isSome = false ∧ vfa.isSome = true)
    (hb : sfb.isSome = true ∧ vfb.isSome = false ∨ sfb.isSome = false ∧ vfb.isSome = true) :
    ExactlyOnePair (ApplyOp2 sfa vfa sfb vfb op) := by
  rcases sfa with _ | fa <;> rcases vfa with _ | ga <;>
    rcases sfb with _ | fb <;> rcases vfb with _ | gb <;>
      simp_all [ApplyOp2, ExactlyOnePair]

theorem ApplyOpAnd_exactlyOne
    (sfa : Option ScalarFunc) (vfa : Option VectorFunc)
    (sfb : Option ScalarFunc) (vfb : Option VectorFunc)
    (ha : sfa.isSome = true ∧ vfa.isSome = false ∨ sfa.isSome = false ∧ vfa.isSome = true)
    (hb : sfb.isSome = true ∧ vfb.isSome = false ∨ sfb.isSome = false ∧ vfb.isSome = true) :
    ExactlyOnePair (ApplyOpAnd sfa vfa sfb vfb) := by
  rcases sfa with _ | fa <;> rcases vfa with _ | ga <;>
    rcases sfb with _ | fb <;> rcases vfb with _ | gb <;>
      simp_all [ApplyOpAnd, ExactlyOnePair]

theorem ApplyOpOr_exactlyOne
    (sfa : Option ScalarFunc) (vfa : Option VectorFunc)
    (sfb : Option ScalarFunc) (vfb : Option VectorFunc)
    (ha : sfa.isSome = true ∧ vfa.isSome = false ∨ sfa.isSome = false ∧ vfa.isSome = true)
    (hb : sfb.isSome = true ∧ vfb.isSome = false ∨ sfb.isSome = false ∧ vfb.isSome = true) :
    ExactlyOnePair (ApplyOpOr sfa vfa sfb vfb) := by
  rcases sfa with _ | fa <;> rcases vfa with _ | ga <;>
    rcases sfb with _ | fb <;> rcases vfb with _ | gb <;>
      simp_all [ApplyOpOr, ExactlyOnePair]

theorem functionPair_exactlyOne (nf : NamedFunc)
    (p : Option ScalarFunc × Option VectorFunc) (hp : ExactlyOnePair p) :
    ExactlyOne ((nf.FunctionS p.1).FunctionV p.2) := by
  obtain ⟨s, v⟩ := p
  rcases s with _ | f <;> rcases v with _ | g <;>
    simp_all [NamedFunc.FunctionS, NamedFunc.FunctionV, ExactlyOne, ExactlyOnePair]

/-- C4: every publicly constructed expression value (scalar constructor with a
valid function, vector constructor with a valid function, constant
constructor) has exactly one evaluator present; setting a non-empty evaluator
of one kind clears the other while assigning an empty evaluator is a silent
no-op leaving the value unchanged; and every operator of the algebra
preserves the exactly-one invariant. -/
theorem c4_exactly_one_invariant :
    (∀ (n : String) (f : ScalarFunc), ExactlyOne (NamedFunc.ofScalarFunc n (some f))) ∧
    (∀ (n : String) (f : VectorFunc), ExactlyOne (NamedFunc.ofVectorFunc n (some f))) ∧
    (∀ x : ScalarType, ExactlyOne (NamedFunc.ofConstant x)) ∧
    (∀ (nf : NamedFunc) (f : ScalarFunc),
      (nf.FunctionS (some f)).scalar_func_ = some f ∧
      (nf.FunctionS (some f)).vector_func_ = none) ∧
    (∀ (nf : NamedFunc) (f : VectorFunc),
      (nf.FunctionV (some f)).vector_func_ = some f ∧
      (nf.FunctionV (some f)).scalar_func_ = none) ∧
    (∀ nf : NamedFunc, nf.FunctionS none = nf ∧ nf.FunctionV none = nf) ∧
    (∀ f g : NamedFunc, ExactlyOne f → ExactlyOne g →
      ExactlyOne (f.addAssign g) ∧ ExactlyOne (f.subAssign g) ∧
      ExactlyOne (f.mulAssign g) ∧ ExactlyOne (f.divAssign g) ∧
      ExactlyOne (f.modAssign g) ∧ ExactlyOne (f.eqOp g) ∧
      ExactlyOne (f.neOp g) ∧ ExactlyOne (f.gtOp g) ∧
      ExactlyOne (f.ltOp g) ∧ ExactlyOne (f.geOp g) ∧
      ExactlyOne (f.leOp g) ∧ ExactlyOne (f.andOp g) ∧ ExactlyOne (f.orOp g)) ∧
    (∀ f : NamedFunc, ExactlyOne f →
      ExactlyOne f.unaryPlus ∧ ExactlyOne f.unaryMinus ∧ ExactlyOne f.unaryNot) := by
  refine ⟨fun n f => Or.inl ⟨rfl, rfl⟩, fun n f => Or.inr ⟨rfl, rfl⟩,
    fun x => Or.inl ⟨rfl, rfl⟩, fun nf f => ⟨rfl, rfl⟩, fun nf f => ⟨rfl, rfl⟩,
    fun nf => ⟨rfl, rfl⟩, ?_, ?_⟩
  · intro f g hf hg
    exact ⟨ApplyOp2_exactlyOne _ _ _ _ _ hf hg, ApplyOp2_exactlyOne _ _ _ _ _ hf hg,
      ApplyOp2_exactlyOne _ _ _ _ _ hf hg, ApplyOp2_exactlyOne _ _ _ _ _ hf hg,
      ApplyOp2_exactlyOne _ _ _ _ _ hf hg,
      functionPair_exactlyOne _ _ (ApplyOp2_exactlyOne _ _ _ _ _ hf hg),
      functionPair_exactlyOne _ _ (ApplyOp2_exactlyOne _ _ _ _ _ hf hg),
      functionPair_exactlyOne _ _ (ApplyOp2_exactlyOne _ _ _ _ _ hf hg),
      functionPair_exactlyOne _ _ (ApplyOp2_exactlyOne _ _ _ _ _ hf hg),
      functionPair_exactlyOne _ _ (ApplyOp2_exactlyOne _ _ _ _ _ hf hg),
      functionPair_exactlyOne _ _ (ApplyOp2_exactlyOne _ _ _ _ _ hf hg),
      functionPair_exactlyOne _ _ (ApplyOpAnd_exactlyOne _ _ _ _ hf hg),
      functionPair_exactlyOne _ _ (ApplyOpOr_exactlyOne _ _ _ _ hf hg)⟩
  · intro f hf
    obtain ⟨n, s, v⟩ := f
    rcases s with _ | fs <;> rcases v with _ | fv <;>
      simp_all [ExactlyOne, NamedFunc.unaryPlus, NamedFunc.unaryMinus, NamedFunc.unaryNot,
        NamedFunc.NameSet, NamedFunc.FunctionS, NamedFunc.FunctionV, ApplyOpS, ApplyOpV]

/-- Witness for C4: concrete leaves and concrete operator applications
satisfy the exactly-one invariant. -/
theorem c4_exactly_one_invariant_witness :
    ExactlyOne (leafX.addAssign leafY) ∧ ExactlyOne (leafV.andOp leafX) := by
  have h := c4_exactly_one_invariant
  exact ⟨(h.2.2.2.2.2.2.1 leafX leafY (Or.inl ⟨rfl, rfl⟩) (Or.inl ⟨rfl, rfl⟩)).1,
    (h.2.2.2.2.2.2.1 leafV leafX (Or.inr ⟨rfl, rfl⟩)
      (Or.inl ⟨rfl, rfl⟩)).2.2.2.2.2.2.2.2.2.2.2.1⟩

/-- C5: the indexing operator errors with a shape mismatch when the receiver
is scalar or the index operand is vector-shaped; for a vector receiver and
scalar index it produces a scalar evaluator computing, per record, the
receiver's vector result at the index evaluator's result via bounds-checked
access, which yields the element when the index is within bounds and the
out-of-range fault when it is not. -/
theorem c5_indexing (f g : NamedFunc) (n1 n2 : String)
    (vf : VectorFunc) (sf : ScalarFunc) (v : VectorType) (i : ScalarType) :
    (f.IsScalar = true → ∃ m, f.indexOp g = Except.error (NFError.shapeMismatch m)) ∧
    (f.IsScalar = false → g.IsVector = true →
      ∃ m, f.indexOp g = Except.error (NFError.shapeMismatch m)) ∧
    (∃ r : IndexedFunc,
      NamedFunc.indexOp ⟨n1, none, some vf⟩ ⟨n2, some sf, none⟩ = Except.ok r ∧
      ∀ b : Baby, r.eval b = vecAt (vf b) (sf b)) ∧
    (0 ≤ i ∧ i.toNat < v.length → vecAt v i = Except.ok (v.getD i.toNat 0)) ∧
    (¬(0 ≤ i ∧ i.toNat < v.length) → vecAt v i = Except.error NFError.indexOutOfRange) := by
  refine ⟨fun h => ⟨"Cannot apply indexing operator to scalar NamedFunc " ++ f.name_, ?_⟩,
    fun h1 h2 => ⟨"Cannot use vector " ++ g.name_ ++ " as index", ?_⟩,
    ⟨_, rfl, fun b => rfl⟩, fun h => ?_, fun h => ?_⟩
  · simp [NamedFunc.indexOp, h]
  · simp [NamedFunc.indexOp, h1, h2]
  · simp [vecAt, h]
  · simp [vecAt, h]

/-- Witness for C5 at the spec's concrete inputs: indexing the scalar leaf
errors with a shape mismatch; `[10,20,30]` at index 1 is 20 and at index 5 is
the out-of-range fault. -/
theorem c5_indexing_witness :
    (∃ m, NamedFunc.indexOp leafX leafY = Except.error (NFError.shapeMismatch m)) ∧
    vecAt [10, 20, 30] 1 = Except.ok 20 ∧
    vecAt [10, 20, 30] 5 = Except.error NFError.indexOutOfRange := by
  have h1 := c5_indexing leafX leafY "v" "i" (fun _ => [10, 20, 30]) (fun _ => 1) [10, 20, 30] 1
  have h5 := c5_indexing leafX leafY "v" "i" (fun _ => [10, 20, 30]) (fun _ => 1) [10, 20, 30] 5
  refine ⟨h1.1 rfl, ?_, h5.2.2.2.2 (by decide)⟩
  have := h1.2.2.2.1 (by decide)
  rw [this]
  rfl

/-- C6 counterexample: indexing the scalar leaf named `x` with the constant 0
fails with the shape-mismatch error already at expression-construction time
(no record has been supplied yet), contradicting the claim that shape errors
are raised lazily at evaluation time. -/
theorem c6_eager_shape_mismatch_counterexample :
    NamedFunc.indexOp leafX (NamedFunc.ofConstant 0)
      = Except.error (NFError.shapeMismatch
          "Cannot apply indexing operator to scalar NamedFunc x") := by
  rfl

/-- C6 (amended): binary-operator construction never errors — every
exactly-one shape pair yields a defined evaluator of exactly one shape — and
the index and invalid-shape errors are raised lazily at evaluation time
(construction of an indexing expression over a vector receiver and scalar
index always succeeds, and the same constructed evaluator can succeed on one
record and fault on another; evaluating an absent evaluator faults only when
called); the shape-mismatch error of the indexing operator, however, is
raised eagerly at expression-construction time. -/
theorem c6_lazy_errors_amended :
    (∀ (op : ScalarType → ScalarType → ScalarType)
        (sfa : Option ScalarFunc) (vfa : Option VectorFunc)
        (sfb : Option ScalarFunc) (vfb : Option VectorFunc),
      (sfa.isSome = true ∧ vfa.isSome = false ∨ sfa.isSome = false ∧ vfa.isSome = true) →
      (sfb.isSome = true ∧ vfb.isSome = false ∨ sfb.isSome = false ∧ vfb.isSome = true) →
      ExactlyOnePair (ApplyOp2 sfa vfa sfb vfb op)) ∧
    (∀ (n1 n2 : String) (vf : VectorFunc) (sf : ScalarFunc),
      ∃ r, NamedFunc.indexOp ⟨n1, none, some vf⟩ ⟨n2, some sf, none⟩ = Except.ok r) ∧
    (∃ r, NamedFunc.indexOp
        ⟨"v", none, some (fun b => if b = 0 then [10, 20, 30] else [])⟩
        ⟨"1", some (fun _ => 1), none⟩ = Except.ok r ∧
      r.eval 0 = Except.ok 20 ∧ r.eval 1 = Except.error NFError.indexOutOfRange) ∧
    (∀ (n : String) (vf : VectorFunc) (b : Baby),
      NamedFunc.GetScalar ⟨n, none, some vf⟩ b = none) ∧
    (∀ f g : NamedFunc, f.IsScalar = true →
      ∃ m, f.indexOp g = Except.error (NFError.shapeMismatch m)) := by
  refine ⟨fun op sfa vfa sfb vfb ha hb => ApplyOp2_exactlyOne op sfa vfa sfb vfb ha hb,
    fun n1 n2 vf sf => ⟨_, rfl⟩, ⟨_, rfl, rfl, rfl⟩, fun n vf b => rfl,
    fun f g h => ⟨"Cannot apply indexing operator to scalar NamedFunc " ++ f.name_,
      by simp [NamedFunc.indexOp, h]⟩⟩

/-- Witness for C6's amended theorem: a concrete scalar/vector operand pair
gives an exactly-one output pair, and indexing the concrete scalar leaf errors
at construction. -/
theorem c6_lazy_errors_amended_witness :
    ExactlyOnePair (ApplyOp2 (some (fun _ => (1 : ScalarType))) none none
      (some (fun _ => ([2] : VectorType))) (fun a b => a + b)) ∧
    (∃ m, NamedFunc.indexOp leafX leafY = Except.error (NFError.shapeMismatch m)) := by
  have h := c6_lazy_errors_amended
  exact ⟨h.1 _ _ _ _ _ (Or.inl ⟨rfl, rfl⟩) (Or.inr ⟨rfl, rfl⟩),
    h.2.2.2.2 leafX leafY rfl⟩

/-- C7: `HavePass` on a list of evaluated vectors returns true iff some index
lies within the bounds of every vector of the list and every vector is truthy
there; on the empty list it returns false. -/
theorem c7_allRowsAnyTrue :
    HavePassVV [] = false ∧
    ∀ vv : List VectorType, vv ≠ [] →
      (HavePassVV vv = true ↔
        ∃ ix : Nat, ∀ v ∈ vv, ix < v.length ∧ v.getD ix 0 ≠ 0) := by
  refine ⟨rfl, fun vv hne => ?_⟩
  obtain ⟨v0, rest, rfl⟩ := List.exists_cons_of_ne_nil hne
  constructor
  · intro h
    simp only [HavePassVV, List.any_eq_true, List.mem_range, List.all_eq_true,
      Bool.and_eq_true, decide_eq_true_eq, truthy] at h
    obtain ⟨ix, _, hall⟩ := h
    exact ⟨ix, hall⟩
  · rintro ⟨ix, hix⟩
    simp only [HavePassVV, List.any_eq_true, List.mem_range, List.all_eq_true,
      Bool.and_eq_true, decide_eq_true_eq, truthy]
    exact ⟨ix, (hix v0 (List.mem_cons_self v0 rest)).1, hix⟩

/-- Witness for C7 at the spec's concrete inputs. -/
theorem c7_allRowsAnyTrue_witness :
    HavePassVV [[1, 0, 1], [1, 1, 0]] = true ∧
    HavePassVV [[0, 0], [1, 1]] = false ∧
    HavePassVV [] = false := by
  have h := c7_allRowsAnyTrue
  exact ⟨(h.2 _ (by decide)).mpr ⟨0, by decide⟩, by decide, h.1⟩

/-- C8: unary operator application preserves the operand's shape — on a
scalar evaluator the result computes `op(f(r))` per record, on a vector
evaluator the result applies `op` element-wise preserving order and length,
an absent evaluator stays absent — and unary plus leaves both evaluators
untouched while rewriting the name to the `+(...)` form. -/
theorem c8_unary_shape (op : ScalarType → ScalarType) (f : ScalarFunc)
    (g : VectorFunc) (n : String) (nf : NamedFunc) (b : Baby) :
    (ApplyOpS (some f) op = some (fun r => op (f r))) ∧
    (ApplyOpS none op = none) ∧
    (optVApp (ApplyOpV (some g) op) b = some ((g b).map op)) ∧
    ((vecResult (ApplyOpV (some g) op) b).length = (g b).length) ∧
    (∀ i : Nat, i < (g b).length →
      (vecResult (ApplyOpV (some g) op) b).getD i 0 = op ((g b).getD i 0)) ∧
    (ApplyOpV none op = none) ∧
    ((NamedFunc.mk n (some f) none).unaryMinus.scalar_func_ = some (fun r => -(f r)) ∧
      (NamedFunc.mk n (some f) none).unaryMinus.vector_func_ = none) ∧
    ((NamedFunc.mk n none (some g)).unaryMinus.vector_func_
        = some (fun r => (g r).map (fun x => -x)) ∧
      (NamedFunc.mk n none (some g)).unaryMinus.scalar_func_ = none) ∧
    (nf.unaryPlus.scalar_func_ = nf.scalar_func_ ∧
      nf.unaryPlus.vector_func_ = nf.vector_func_ ∧
      nf.unaryPlus.name_ = CleanName ("+(" ++ nf.name_ ++ ")")) := by
  refine ⟨rfl, rfl, rfl, by simp [ApplyOpV, vecResult], fun i h => ?_, rfl,
    ⟨rfl, rfl⟩, ⟨rfl, rfl⟩, ⟨rfl, rfl, rfl⟩⟩
  simpa [ApplyOpV, vecResult] using list_getD_map op (g b) i h

/-- Witness for C8: element-wise negation of the concrete vector `[3, 4]` at
index 0 gives -3. -/
theorem c8_unary_shape_witness :
    (vecResult (ApplyOpV (some (fun _ => ([3, 4] : VectorType))) (fun x => -x)) 0).getD 0 0
      = -3 := by
  have h := (c8_unary_shape (fun x => -x) (fun _ => 0) (fun _ => [3, 4]) "t" leafX 0).2.2.2.2.1
    0 (by decide)
  rw [h]
  decide

theorem cleanName_append (a b : String) :
    CleanName (a ++ b) = CleanName a ++ CleanName b := by
  cases a with
  | mk la =>
    cases b with
    | mk lb =>
      show String.mk ((la ++ lb).filter _) = String.mk (la.filter _ ++ lb.filter _)
      rw [List.filter_append]

theorem noSpace_append (a b : String) (ha : NoSpace a) (hb : NoSpace b) :
    NoSpace (a ++ b) := by
  unfold NoSpace at *
  rw [cleanName_append, ha, hb]

theorem functionS_name (nf : NamedFunc) (o : Option ScalarFunc) :
    (nf.FunctionS o).name_ = nf.name_ := by
  cases o <;> rfl

theorem functionV_name (nf : NamedFunc) (o : Option VectorFunc) :
    (nf.FunctionV o).name_ = nf.name_ := by
  cases o <;> rfl

/-- C9: every binary operator rewrites the result's name to the parenthesized
concatenation of the operand names around the operator symbol; when the
operand names are space-free (as every publicly constructed name is, names
being cleaned at construction) the result is exactly that concatenation; in
particular `(x+y).Name()` is literally `(x)+(y)` for leaves `x`, `y`, and
double unary negation of the leaf `x` yields the name `-(-(x))`. -/
theorem c9_name_rewriting :
    (∀ f g : NamedFunc,
      (f.addAssign g).name_ = "(" ++ f.name_ ++ ")" ++ "+" ++ "(" ++ g.name_ ++ ")" ∧
      (f.subAssign g).name_ = "(" ++ f.name_ ++ ")" ++ "-" ++ "(" ++ g.name_ ++ ")" ∧
      (f.mulAssign g).name_ = "(" ++ f.name_ ++ ")" ++ "*" ++ "(" ++ g.name_ ++ ")" ∧
      (f.divAssign g).name_ = "(" ++ f.name_ ++ ")" ++ "/" ++ "(" ++ g.name_ ++ ")" ∧
      (f.modAssign g).name_ = "(" ++ f.name_ ++ ")" ++ "%" ++ "(" ++ g.name_ ++ ")") ∧
    (∀ f g : NamedFunc, NoSpace f.name_ → NoSpace g.name_ →
      (f.eqOp g).name_ = "(" ++ f.name_ ++ ")" ++ "==" ++ "(" ++ g.name_ ++ ")" ∧
      (f.neOp g).name_ = "(" ++ f.name_ ++ ")" ++ "!=" ++ "(" ++ g.name_ ++ ")" ∧
      (f.gtOp g).name_ = "(" ++ f.name_ ++ ")" ++ ">" ++ "(" ++ g.name_ ++ ")" ∧
      (f.ltOp g).name_ = "(" ++ f.name_ ++ ")" ++ "<" ++ "(" ++ g.name_ ++ ")" ∧
      (f.geOp g).name_ = "(" ++ f.name_ ++ ")" ++ ">=" ++ "(" ++ g.name_ ++ ")" ∧
      (f.leOp g).name_ = "(" ++ f.name_ ++ ")" ++ "<=" ++ "(" ++ g.name_ ++ ")" ∧
      (f.andOp g).name_ = "(" ++ f.name_ ++ ")" ++ "&&" ++ "(" ++ g.name_ ++ ")" ∧
      (f.orOp g).name_ = "(" ++ f.name_ ++ ")" ++ "||" ++ "(" ++ g.name_ ++ ")") ∧
    ((leafX.add leafY).name_ = "(x)+(y)") ∧
    (leafX.unaryMinus.unaryMinus.name_ = "-(-(x))") := by
  refine ⟨fun f g => ⟨rfl, rfl, rfl, rfl, rfl⟩, ?_, rfl, rfl⟩
  intro f g hf hg
  have key : ∀ sym : String, NoSpace sym →
      CleanName ("(" ++ f.name_ ++ ")" ++ sym ++ "(" ++ g.name_ ++ ")")
        = "(" ++ f.name_ ++ ")" ++ sym ++ "(" ++ g.name_ ++ ")" := by
    intro sym hs
    exact noSpace_append _ _ (noSpace_append _ _ (noSpace_append _ _ (noSpace_append _ _
      (noSpace_append _ _ (noSpace_append _ _ rfl hf) rfl) hs) rfl) hg) rfl
  have hname : ∀ (sym : String) (op : ScalarType → ScalarType → ScalarType),
      (NamedFunc.cmpOp sym op f g).name_
        = CleanName ("(" ++ f.name_ ++ ")" ++ sym ++ "(" ++ g.name_ ++ ")") := by
    intro sym op
    unfold NamedFunc.cmpOp
    rw [functionV_name, functionS_name]
    rfl
  have hand : (f.andOp g).name_
      = CleanName ("(" ++ f.name_ ++ ")" ++ "&&" ++ "(" ++ g.name_ ++ ")") := by
    unfold NamedFunc.andOp
    rw [functionV_name, functionS_name]
    rfl
  have hor : (f.orOp g).name_
      = CleanName ("(" ++ f.name_ ++ ")" ++ "||" ++ "(" ++ g.name_ ++ ")") := by
    unfold NamedFunc.orOp
    rw [functionV_name, functionS_name]
    rfl
  exact ⟨(hname "==" _).trans (key "==" rfl), (hname "!=" _).trans (key "!=" rfl),
    (hname ">" _).trans (key ">" rfl), (hname "<" _).trans (key "<" rfl),
    (hname ">=" _).trans (key ">=" rfl), (hname "<=" _).trans (key "<=" rfl),
    hand.trans (key "&&" rfl), hor.trans (key "||" rfl)⟩

/-- Witness for C9 on the concrete space-free leaves `x` and `y`. -/
theorem c9_name_rewriting_witness : (leafX.eqOp leafY).name_ = "(x)==(y)" := by
  have h := (c9_name_rewriting.2.1 leafX leafY rfl rfl).1
  rw [h]
  rfl

/-- C10: for every pair of expression values and every arithmetic operator,
the non-mutating form produces a value identical — same name, same evaluator
slots and hence the same evaluation result on every record — to a copy of the
left operand passed through the corresponding compound assignment (the source
passes the left operand by value and returns the compound assignment's
result). -/
theorem c10_nonmutating_matches_compound (f g : NamedFunc) (b : Baby) :
    ((f.add g).name_ = (f.addAssign g).name_ ∧
      (f.add g).scalar_func_ = (f.addAssign g).scalar_func_ ∧
      (f.add g).vector_func_ = (f.addAssign g).vector_func_ ∧
      (f.add g).GetScalar b = (f.addAssign g).GetScalar b ∧
      (f.add g).GetVector b = (f.addAssign g).GetVector b) ∧
    ((f.sub g).name_ = (f.subAssign g).name_ ∧
      (f.sub g).scalar_func_ = (f.subAssign g).scalar_func_ ∧
      (f.sub g).vector_func_ = (f.subAssign g).vector_func_ ∧
      (f.sub g).GetScalar b = (f.subAssign g).GetScalar b ∧
      (f.sub g).GetVector b = (f.subAssign g).GetVector b) ∧
    ((f.mul g).name_ = (f.mulAssign g).name_ ∧
      (f.mul g).scalar_func_ = (f.mulAssign g).scalar_func_ ∧
      (f.mul g).vector_func_ = (f.mulAssign g).vector_func_ ∧
      (f.mul g).GetScalar b = (f.mulAssign g).GetScalar b ∧
      (f.mul g).GetVector b = (f.mulAssign g).GetVector b) ∧
    ((f.div g).name_ = (f.divAssign g).name_ ∧
      (f.div g).scalar_func_ = (f.divAssign g).scalar_func_ ∧
      (f.div g).vector_func_ = (f.divAssign g).vector_func_ ∧
      (f.div g).GetScalar b = (f.divAssign g).GetScalar b ∧
      (f.div g).GetVector b = (f.divAssign g).GetVector b) ∧
    ((f.mod g).name_ = (f.modAssign g).name_ ∧
      (f.mod g).scalar_func_ = (f.modAssign g).scalar_func_ ∧
      (f.mod g).vector_func_ = (f.modAssign g).vector_func_ ∧
      (f.mod g).GetScalar b = (f.modAssign g).GetScalar b ∧
      (f.mod g).GetVector b = (f.modAssign g).GetVector b) :=
  ⟨⟨rfl, rfl, rfl, rfl, rfl⟩, ⟨rfl, rfl, rfl, rfl, rfl⟩, ⟨rfl, rfl, rfl, rfl, rfl⟩,
    ⟨rfl, rfl, rfl, rfl, rfl⟩, ⟨rfl, rfl, rfl, rfl, rfl⟩⟩

